import Mathlib

/-!
stellar-mc: a shallow embedding

A shallow embedding of the command line client in `src/mc.go` and `src/main.go`:
JSON documents are decoded into Go structs, turned into transaction mutators,
built into a draft transaction, signed, encoded and submitted to horizon.

The packages the program imports (encoding/json, stellar build, horizon, keypair,
net/http, os) are outside the repository.  What they compute is either modelled
explicitly below (the struct decoding rules of encoding/json, the mutator loop of
the transaction builder) or supplied by a record of library answers, `Lib`.
Every effect a procedure has on the outside world is written to a trace of
`Event`s, and `log.Fatal` ends the process with exit status 1.
-/

namespace StellarMc

/-! ## encoding/json -/

/-- A JSON document as the scanner of encoding/json reads it.  A number keeps
its literal text, an object keeps its members in textual order. -/
inductive JSON where
  | null
  | bool (b : Bool)
  | number (literal : String)
  | string (s : String)
  | array (items : List JSON)
  | object (members : List (String × JSON))

/-- The name encoding/json gives a JSON value in an UnmarshalTypeError. -/
def JSON.kind : JSON → String
  | .null => "null"
  | .bool _ => "bool"
  | .number _ => "number"
  | .string _ => "string"
  | .array _ => "array"
  | .object _ => "object"

/-- What json.Unmarshal returns when it fails: a syntax error of the text, or
the first value that does not fit the Go type of its target. -/
inductive JSONError where
  | malformed (msg : String)
  | type (value : String) (field : String)
deriving DecidableEq, Repr

/-- Simple case folding of one rune, for the runes that can meet an ASCII field
name: an upper case ASCII letter folds to its lower case, the Kelvin sign
(U+212A) folds to k and the long s (U+017F) folds to s. -/
def foldRune (c : Char) : Char :=
  if 65 ≤ c.toNat ∧ c.toNat ≤ 90 then Char.ofNat (c.toNat + 32)
  else if c.toNat = 8490 then Char.ofNat 107
  else if c.toNat = 383 then Char.ofNat 115
  else c

/-- The case-insensitive comparison encoding/json uses between a struct field
name and an object key (all field names of this program are ASCII). -/
def equalFold (name key : String) : Bool :=
  name.data.map foldRune == key.data.map foldRune

/-- The struct field an object key selects: the first field whose name is the
key exactly, otherwise the first field whose name matches it case-insensitively.
Fields are numbered in declaration order. -/
def findField (names : List String) (key : String) : Option Nat :=
  match names.findIdx? (fun n => n == key) with
  | some i => some i
  | none => names.findIdx? (fun n => equalFold n key)

/-- Decoding the members of a JSON object into a struct, in textual order: a
key that selects no field is skipped, a key that selects field `i` stores its
value through `set i`, and a later member overwrites an earlier one. -/
def decodeMembers {T : Type} (names : List String)
    (set : Nat → JSON → T → Except JSONError T) :
    List (String × JSON) → T → Except JSONError T
  | [], t => .ok t
  | (key, value) :: rest, t =>
    match findField names key with
    | none => decodeMembers names set rest t
    | some i =>
      match set i value t with
      | .ok t1 => decodeMembers names set rest t1
      | .error e => .error e

/-- Decoding a JSON value into a struct: null leaves the struct as it is, an
object is decoded member by member, anything else is a type error. -/
def decodeStruct {T : Type} (names : List String)
    (set : Nat → JSON → T → Except JSONError T) (field : String) (v : JSON) (t : T) :
    Except JSONError T :=
  match v with
  | .null => .ok t
  | .object members => decodeMembers names set members t
  | other => .error (.type other.kind field)

/-- Decoding a JSON value into a Go string: null leaves the old value. -/
def decodeString (field : String) (old : String) : JSON → Except JSONError String
  | .string s => .ok s
  | .null => .ok old
  | other => .error (.type other.kind field)

/-- The value of a literal made of decimal digits only, which is what
strconv.ParseUint accepts in base 10. -/
def parseUint (literal : String) : Option Nat :=
  if literal.data ≠ [] ∧ literal.data.all (fun c => 48 ≤ c.toNat ∧ c.toNat ≤ 57) then
    some (literal.data.foldl (fun n c => 10 * n + (c.toNat - 48)) 0)
  else none

/-- Decoding a JSON value into a pointer to a named string type (nil is `none`):
null sets the pointer to nil. -/
def decodeStringPtr (field : String) : JSON → Except JSONError (Option String)
  | .string s => .ok (some s)
  | .null => .ok none
  | other => .error (.type other.kind field)

/-- Decoding a JSON value into a pointer to a uint32: the literal has to be an
unsigned decimal integer below 2^32. -/
def decodeUint32Ptr (field : String) : JSON → Except JSONError (Option Nat)
  | .number literal =>
    match parseUint literal with
    | some n => if n < 2 ^ 32 then .ok (some n) else .error (.type ("number " ++ literal) field)
    | none => .error (.type ("number " ++ literal) field)
  | .null => .ok none
  | other => .error (.type other.kind field)

/-- Decoding the elements of a JSON array into a slice of strings: a null
element leaves the zero value, the empty string. -/
def decodeStrings (field : String) : List JSON → Except JSONError (List String)
  | [] => .ok []
  | item :: rest =>
    match decodeString field "" item with
    | .error e => .error e
    | .ok s =>
      match decodeStrings field rest with
      | .error e => .error e
      | .ok ss => .ok (s :: ss)

/-- Decoding a JSON value into a slice of strings.  A nil slice is `none`; an
empty JSON array gives an empty slice that is not nil. -/
def decodeStringSlice (field : String) : JSON → Except JSONError (Option (List String))
  | .array items =>
    match decodeStrings field items with
    | .ok ss => .ok (some ss)
    | .error e => .error e
  | .null => .ok none
  | other => .error (.type other.kind field)

/-! ## The packages of the stellar SDK -/

/-- The two horizon clients the SDK declares as package variables. -/
inductive HorizonClient where
  | DefaultPublicNetClient
  | DefaultTestNetClient
deriving DecidableEq, Repr

/-- The URL field of the two clients. -/
def HorizonClient.URL : HorizonClient → String
  | .DefaultPublicNetClient => "https://horizon.stellar.org"
  | .DefaultTestNetClient => "https://horizon-testnet.stellar.org"

/-- The constant network.PublicNetworkPassphrase. -/
def PublicNetworkPassphrase : String := "Public Global Stellar Network ; September 2015"

/-- The constant network.TestNetworkPassphrase. -/
def TestNetworkPassphrase : String := "Test SDF Network ; September 2015"

/-- The struct b.Network. -/
structure Network where
  Passphrase : String
deriving DecidableEq, Repr

/-- The variable b.MaxLimit, the text of the largest amount,
Limit(amount.String(math.MaxInt64)). -/
def MaxLimit : String := "922337203685.4775807"

/-- The struct b.Asset. -/
structure Asset where
  Code : String
  Issuer : String
  Native : Bool
deriving DecidableEq, Repr

/-- The function b.CreditAsset. -/
def CreditAsset (code issuer : String) : Asset := ⟨code, issuer, false⟩

/-- The arguments the program gives to b.Payment. -/
inductive PaymentMutator where
  | Destination (AddressOrSeed : String)
  | CreditAmount (Code Issuer Amount : String)
deriving DecidableEq, Repr

/-- The values a decoded record can hold behind its pointer fields, as
structValues hands them out: a source account, a home domain, a master weight. -/
inductive Value where
  | SourceAccount (AddressOrSeed : String)
  | HomeDomain (domain : String)
  | MasterWeight (weight : Nat)
deriving DecidableEq, Repr

/-- A b.SetOptionsBuilder, identified with the arguments b.SetOptions was
called with; the zero value of the type is the builder of no argument. -/
structure SetOptionsBuilder where
  values : List Value
deriving DecidableEq, Repr

/-- The values of interface b.TransactionMutator the program builds: each
constructor is the SDK call or literal of the same name with its arguments. -/
inductive TransactionMutator where
  | SourceAccount (AddressOrSeed : String)
  | Network (n : Network)
  | AutoSequence (client : HorizonClient)
  | Payment (muts : List PaymentMutator)
  | Trust (code issuer limit : String)
  | SetOptions (b : SetOptionsBuilder)
deriving DecidableEq, Repr

/-- The type switch on b.TransactionMutator: of the values a record can hold
only a source account has the method MutateTransaction. -/
def Value.asTransactionMutator : Value → Option TransactionMutator
  | .SourceAccount s => some (.SourceAccount s)
  | .HomeDomain _ => none
  | .MasterWeight _ => none

/-- The struct horizon.TransactionResultCodes. -/
structure TransactionResultCodes where
  TransactionCode : String
  OperationCodes : List String
deriving DecidableEq, Repr

/-- The error stellar.SubmitTransaction returns: a horizon.Error, with what
its method ResultCodes gives, or any other error. -/
inductive SubmitError where
  | horizon (msg : String) (resultCodes : Except String TransactionResultCodes)
  | other (msg : String)

/-- The struct horizon.TransactionSuccess, of which the program reads Ledger. -/
structure TransactionSuccess where
  Ledger : Int

/-- A key pair as the program sees it: its address. -/
structure KP where
  Address : String
deriving DecidableEq, Repr

/-- A key pair with its seed, as keypair.Random returns it. -/
structure Full where
  Address : String
  Seed : String
deriving DecidableEq, Repr

/-- The response to an HTTP request: the status code and the outcome of reading
the body. -/
structure HTTPResponse where
  StatusCode : Nat
  Body : Except String String

/-- The answers of the imported packages.  `Draft` is the state of a
b.TransactionBuilder, `Envelope` that of a b.TransactionEnvelopeBuilder. -/
structure Lib where
  Draft : Type
  Envelope : Type
  Account : Type
  scan : String → Except String JSON
  keypairParse : String → Except String KP
  keypairRandom : Except String Full
  newDraft : Draft
  mutateTransaction : TransactionMutator → Draft → Draft × Option String
  sign : Draft → List String → Except String Envelope
  base64 : Envelope → Except String String
  submitTransaction : HorizonClient → String → Except SubmitError TransactionSuccess
  loadAccount : HorizonClient → String → Except String Account
  marshalIndent : Account → Except String String
  httpGet : String → Except String HTTPResponse
  osCreate : String → Except String Unit

/-- The method Mutate of a transaction builder: the mutators are applied in
order and the first error stops the loop. -/
def Mutate (lib : Lib) : List TransactionMutator → lib.Draft → lib.Draft × Option String
  | [], d => (d, none)
  | m :: rest, d =>
    match lib.mutateTransaction m d with
    | (d1, none) => Mutate lib rest d1
    | (d1, some err) => (d1, some err)

/-- The function b.Transaction: a new builder and one call of Mutate; an error
gives no builder. -/
def Transaction (lib : Lib) (muts : List TransactionMutator) : Except String lib.Draft :=
  match Mutate lib muts lib.newDraft with
  | (d, none) => .ok d
  | (_, some err) => .error err

/-- The function json.Unmarshal on a target whose decoding is `decode`. -/
def Unmarshal {T : Type} (lib : Lib) (data : String)
    (decode : JSON → T → Except JSONError T) (target : T) : Except JSONError T :=
  match lib.scan data with
  | .error msg => .error (.malformed msg)
  | .ok v => decode v target

/-! ## The process: trace and exit -/

/-- What a line of the log shows. -/
inductive LogValue where
  | text (s : String)
  | jsonError (e : JSONError)
  | resultCodes (codes : TransactionResultCodes)
  | invalidOperation (v : Value)
deriving DecidableEq, Repr

/-- The effects of the program, in the order they happen.  The last one records
a call of a procedure that no file under src/ declares the way main.go calls it:
its name and its string arguments. -/
inductive Event where
  | log (v : LogValue)
  | stdout (text : String)
  | printOptions (b : SetOptionsBuilder)
  | printDefaults
  | httpGet (url : String)
  | createFile (name : String)
  | writeFile (name content : String)
  | loadAccount (client : HorizonClient) (address : String)
  | transaction (muts : List TransactionMutator)
  | mutate (muts : List TransactionMutator)
  | submit (client : HorizonClient) (blob : String)
  | call (procedure : String) (args : List String)
deriving DecidableEq, Repr

/-- The string arguments of a recorded call of `procedure`, for an event that
is one. -/
def Event.callArgs (procedure : String) : Event → Option (List String)
  | .call name args => if name = procedure then some args else none
  | _ => none

/-- The mutators of a call of b.Transaction, for an event that is one. -/
def Event.transactionArgs : Event → Option (List TransactionMutator)
  | .transaction muts => some muts
  | _ => none

/-- How a procedure ends: it returns a value, or the process exits. -/
inductive Outcome (α : Type) where
  | returned (a : α)
  | exited (status : Nat)

/-- A run of a procedure: the events it caused and how it ended. -/
structure Run (α : Type) where
  trace : List Event
  outcome : Outcome α

/-- Sequencing: the second procedure runs only when the first returns. -/
def Run.bind {α β : Type} (r : Run α) (f : α → Run β) : Run β :=
  match r.outcome with
  | .returned a => ⟨r.trace ++ (f a).trace, (f a).outcome⟩
  | .exited status => ⟨r.trace, .exited status⟩

instance : Monad Run where
  pure a := ⟨[], .returned a⟩
  bind := Run.bind

/-- One effect. -/
def emit (e : Event) : Run Unit := ⟨[e], .returned ()⟩

/-- The functions log.Fatal, log.Fatalln and log.Fatalf: the line is written and
the process exits with status 1. -/
def fatal {α : Type} (v : LogValue) : Run α := ⟨[.log v], .exited 1⟩

/-- The functions log.Println and log.Printf. -/
def logPrint (v : LogValue) : Run Unit := emit (.log v)

/-! ## src/mc.go -/

/-- The struct config. -/
structure config where
  client : HorizonClient
  network : Network
deriving DecidableEq, Repr

/-- The function readConfig of src/mc.go: always the test network. -/
def Mc.readConfig (_cpath : String) : config :=
  ⟨.DefaultTestNetClient, ⟨TestNetworkPassphrase⟩⟩

/-- The function seedToPair. -/
def seedToPair (lib : Lib) (seed : String) : Run KP :=
  match lib.keypairParse seed with
  | .error err => fatal (.text err)
  | .ok kp => pure kp

/-- The function createNewKeys. -/
def createNewKeys (lib : Lib) (fpath : String) : Run String :=
  match lib.keypairRandom with
  | .error err => fatal (.text err)
  | .ok pair => do
    emit (.createFile (fpath ++ ".pub"))
    match lib.osCreate (fpath ++ ".pub") with
    | .error err => fatal (.text err)
    | .ok _ => do
      emit (.createFile fpath)
      match lib.osCreate fpath with
      | .error err => fatal (.text err)
      | .ok _ => do
        emit (.writeFile (fpath ++ ".pub") pair.Address)
        emit (.writeFile fpath pair.Seed)
        logPrint (.text ("keys are created and stored in: " ++ (fpath ++ ".pub") ++ " and "
          ++ fpath ++ "\n"))
        pure fpath

/-- The function toJSON. -/
def toJSON (lib : Lib) (foo : lib.Account) : Run String :=
  match lib.marshalIndent foo with
  | .error err => fatal (.text ("error:" ++ err))
  | .ok b => pure b

/-- The function loadAccount. -/
def loadAccount (lib : Lib) (stellar : HorizonClient) (address : String) : Run lib.Account := do
  emit (.loadAccount stellar address)
  match lib.loadAccount stellar address with
  | .error err => fatal (.text err)
  | .ok account => pure account

/-- The function fundTestAccount. -/
def fundTestAccount (lib : Lib) (stellar : HorizonClient) (address : String) : Run Unit := do
  emit (.httpGet (stellar.URL ++ "/friendbot?addr=" ++ address))
  match lib.httpGet (stellar.URL ++ "/friendbot?addr=" ++ address) with
  | .error err => fatal (.text err)
  | .ok resp =>
    match resp.Body with
    | .error err => fatal (.text err)
    | .ok body =>
      if resp.StatusCode ≠ 200 then
        fatal (.text ("could not fund " ++ address ++ ", horizon said: " ++ body ++ "\n"))
      else pure ()

/-- The function submitTransactionB64. -/
def submitTransactionB64 (lib : Lib) (stellar : HorizonClient) (base64tx : String) : Run Int := do
  emit (.submit stellar base64tx)
  match lib.submitTransaction stellar base64tx with
  | .ok resp => pure resp.Ledger
  | .error (.horizon msg resultCodes) => do
    logPrint (.text msg)
    match resultCodes with
    | .error _ => fatal (.text "failed to extract result codes from horizon response")
    | .ok codes => fatal (.resultCodes codes)
  | .error (.other msg) => do
    logPrint (.text msg)
    fatal (.text "could not submit the transaction")

/-- The function submitTransaction of src/mc.go. -/
def submitTransaction (lib : Lib) (stellar : HorizonClient) (txn : lib.Draft) (seed : String) :
    Run Int := do
  let txe ←
    if seed ≠ "" then
      match lib.sign txn [seed] with
      | .error err => fatal (.text err)
      | .ok txe => pure txe
    else
      fatal (.text ("can't find a seed to sign this transaction, and external / hardware "
        ++ "signers are not yet supported"))
  match lib.base64 txe with
  | .error err => fatal (.text err)
  | .ok txeB64 => submitTransactionB64 lib stellar txeB64

/-- The struct tokenPayment. -/
structure tokenPayment where
  From : String
  To : String
  Amount : String
  Token : String
  Issuer : String
deriving DecidableEq, Repr

/-- The names encoding/json gives the fields of tokenPayment, in declaration order. -/
def tokenPayment.fieldNames : List String := ["From", "To", "Amount", "Token", "Issuer"]

/-- Storing a JSON value in field `i` of a tokenPayment. -/
def tokenPayment.setField (i : Nat) (v : JSON) (t : tokenPayment) : Except JSONError tokenPayment :=
  match i with
  | 0 => (decodeString "tokenPayment.From" t.From v).map fun s => { t with From := s }
  | 1 => (decodeString "tokenPayment.To" t.To v).map fun s => { t with To := s }
  | 2 => (decodeString "tokenPayment.Amount" t.Amount v).map fun s => { t with Amount := s }
  | 3 => (decodeString "tokenPayment.Token" t.Token v).map fun s => { t with Token := s }
  | 4 => (decodeString "tokenPayment.Issuer" t.Issuer v).map fun s => { t with Issuer := s }
  | _ => .ok t

/-- Decoding a JSON value into a tokenPayment. -/
def tokenPayment.decode (v : JSON) (t : tokenPayment) : Except JSONError tokenPayment :=
  decodeStruct tokenPayment.fieldNames tokenPayment.setField "tokenPayment" v t

/-- The method tokenPayment.send. -/
def tokenPayment.send (lib : Lib) (t : tokenPayment) (conf : config)
    (txOptions : SetOptionsBuilder) : Run lib.Draft := do
  let kp ← seedToPair lib t.From
  logPrint (.text ("sending " ++ t.Amount ++ " " ++ t.Token ++ " from " ++ kp.Address ++ " to "
    ++ t.To))
  let asset := CreditAsset t.Token t.Issuer
  let muts : List TransactionMutator :=
    [.SourceAccount t.From, .Network conf.network, .AutoSequence conf.client,
      .Payment [.Destination t.To, .CreditAmount asset.Code asset.Issuer t.Amount],
      .SetOptions txOptions]
  emit (.transaction muts)
  match Transaction lib muts with
  | .error err => fatal (.text err)
  | .ok tx => pure tx

/-- The struct newToken. -/
structure newToken where
  IssuerAddress : String
  DistributorSeed : String
  Code : String
  Limit : String
deriving DecidableEq, Repr

/-- The names encoding/json gives the fields of newToken, in declaration order. -/
def newToken.fieldNames : List String := ["issuer-address", "distributor-seed", "Code", "Limit"]

/-- Storing a JSON value in field `i` of a newToken. -/
def newToken.setField (i : Nat) (v : JSON) (t : newToken) : Except JSONError newToken :=
  match i with
  | 0 => (decodeString "newToken.issuer-address" t.IssuerAddress v).map fun s =>
      { t with IssuerAddress := s }
  | 1 => (decodeString "newToken.distributor-seed" t.DistributorSeed v).map fun s =>
      { t with DistributorSeed := s }
  | 2 => (decodeString "newToken.Code" t.Code v).map fun s => { t with Code := s }
  | 3 => (decodeString "newToken.Limit" t.Limit v).map fun s => { t with Limit := s }
  | _ => .ok t

/-- Decoding a JSON value into a newToken. -/
def newToken.decode (v : JSON) (t : newToken) : Except JSONError newToken :=
  decodeStruct newToken.fieldNames newToken.setField "newToken" v t

/-- The method newToken.issueNew. -/
def newToken.issueNew (lib : Lib) (t : newToken) (conf : config)
    (txOptions : SetOptionsBuilder) : Run lib.Draft := do
  let distributor ← seedToPair lib t.DistributorSeed
  let limit := if t.Limit ≠ "" then t.Limit else MaxLimit
  let muts : List TransactionMutator :=
    [.SourceAccount distributor.Address, .AutoSequence conf.client, .Network conf.network,
      .Trust t.Code t.IssuerAddress limit, .SetOptions txOptions]
  emit (.transaction muts)
  match Transaction lib muts with
  | .error err => fatal (.text err)
  | .ok tx => pure tx

/-- The struct txOperations: one pointer field, nil when `none`, to a
b.SourceAccount, of which the only field is AddressOrSeed. -/
structure txOperations where
  SourceAccount : Option String
deriving DecidableEq, Repr

/-- The names encoding/json gives the fields of txOperations. -/
def txOperations.fieldNames : List String := ["source-account"]

/-- Storing a JSON value in the one field of a b.SourceAccount. -/
def SourceAccount.setField (i : Nat) (v : JSON) (s : String) : Except JSONError String :=
  match i with
  | 0 => decodeString "SourceAccount.AddressOrSeed" s v
  | _ => .ok s

/-- Storing a JSON value in field `i` of a txOperations: null sets the pointer
to nil, an object is decoded into the struct the pointer leads to, a new one when
the pointer is nil. -/
def txOperations.setField (i : Nat) (v : JSON) (t : txOperations) : Except JSONError txOperations :=
  match i with
  | 0 =>
    match v with
    | .null => .ok { t with SourceAccount := none }
    | other =>
      (decodeStruct ["AddressOrSeed"] SourceAccount.setField "txOperations.source-account" other
        (t.SourceAccount.getD "")).map fun s => { t with SourceAccount := some s }
  | _ => .ok t

/-- Decoding a JSON value into a txOperations. -/
def txOperations.decode (v : JSON) (t : txOperations) : Except JSONError txOperations :=
  decodeStruct txOperations.fieldNames txOperations.setField "txOperations" v t

/-- The fields of a txOperations as reflection lists them, in declaration order. -/
def txOperations.fields (t : txOperations) : List (Option Value) :=
  [t.SourceAccount.map .SourceAccount]

/-- The struct txOptions: two pointer fields, nil when `none`. -/
structure txOptions where
  HomeDomain : Option String
  MasterWeight : Option Nat
deriving DecidableEq, Repr

/-- The names encoding/json gives the fields of txOptions, in declaration order. -/
def txOptions.fieldNames : List String := ["home-domain", "master-weight"]

/-- Storing a JSON value in field `i` of a txOptions. -/
def txOptions.setField (i : Nat) (v : JSON) (t : txOptions) : Except JSONError txOptions :=
  match i with
  | 0 => (decodeStringPtr "txOptions.home-domain" v).map fun d => { t with HomeDomain := d }
  | 1 => (decodeUint32Ptr "txOptions.master-weight" v).map fun w => { t with MasterWeight := w }
  | _ => .ok t

/-- Decoding a JSON value into a txOptions. -/
def txOptions.decode (v : JSON) (t : txOptions) : Except JSONError txOptions :=
  decodeStruct txOptions.fieldNames txOptions.setField "txOptions" v t

/-- The fields of a txOptions as reflection lists them, in declaration order. -/
def txOptions.fields (t : txOptions) : List (Option Value) :=
  [t.HomeDomain.map .HomeDomain, t.MasterWeight.map .MasterWeight]

/-- The function structValues.  Its argument is a struct seen through
reflection: the fields in declaration order, each a pointer that is nil (`none`)
or leads to a value. -/
def structValues (s : List (Option Value)) : List Value :=
  s.foldl (fun values f =>
    match f with
    | some x => values ++ [x]
    | none => values) []

/-- The loop of txOperations.parse over the values: each has to be a
transaction mutator. -/
def txOperations.parseValues : List Value → Run (List TransactionMutator)
  | [] => pure []
  | v :: rest =>
    match v.asTransactionMutator with
    | some m => do
      let muts ← txOperations.parseValues rest
      pure (m :: muts)
    | none => fatal (.invalidOperation v)

/-- The method txOperations.parse. -/
def txOperations.parse (lib : Lib) (operations : String) : Run (List TransactionMutator) :=
  match Unmarshal lib operations txOperations.decode ⟨none⟩ with
  | .error err => fatal (.jsonError err)
  | .ok topts => txOperations.parseValues (structValues topts.fields)

/-- The method txOperations.buildTransaction of src/mc.go.  The value Mutate
returns is not looked at. -/
def txOperations.buildTransaction (lib : Lib) (conf : config)
    (operations : List TransactionMutator) (options : SetOptionsBuilder) : Run lib.Draft := do
  let muts : List TransactionMutator :=
    [.Network conf.network, .AutoSequence conf.client, .SetOptions options]
  emit (.transaction muts)
  match Transaction lib muts with
  | .error err => fatal (.text err)
  | .ok tx => do
    emit (.mutate operations)
    pure (Mutate lib operations tx).1

/-- The function b.SetOptions. -/
def SetOptions (muts : List Value) : SetOptionsBuilder := ⟨muts⟩

/-- The function parseOptions. -/
def parseOptions (lib : Lib) (options : String) : Run SetOptionsBuilder :=
  match Unmarshal lib options txOptions.decode ⟨none, none⟩ with
  | .error err => fatal (.jsonError err)
  | .ok topts => pure (SetOptions (structValues topts.fields))

/-- The flags of src/mc.go after flag.Parse. -/
structure Mc.Flags where
  fund : String
  keyFpath : String
  txToSubmit : String
  issueToken : String
  sendPayment : String
  txOptions : String
  accountDetails : String

/-- The function main of src/mc.go, from the parsed flags on. -/
def Mc.main (lib : Lib) (flags : Mc.Flags) : Run Unit := do
  let conf := Mc.readConfig "/tmp/todo"
  let txOptionsBuilder ←
    if flags.txOptions ≠ "" then parseOptions lib flags.txOptions
    else pure (⟨[]⟩ : SetOptionsBuilder)
  if flags.fund ≠ "" then
    fundTestAccount lib conf.client flags.fund
  else if flags.keyFpath ≠ "" then do
    let _ ← createNewKeys lib flags.keyFpath
    pure ()
  else if flags.txToSubmit ≠ "" then do
    let _ ← submitTransactionB64 lib conf.client flags.txToSubmit
    pure ()
  else if flags.accountDetails ≠ "" then do
    let account ← loadAccount lib conf.client flags.accountDetails
    let text ← toJSON lib account
    emit (.stdout (text ++ "\n"))
  else if flags.sendPayment ≠ "" then
    match Unmarshal lib flags.sendPayment tokenPayment.decode ⟨"", "", "", "", ""⟩ with
    | .error err => fatal (.jsonError err)
    | .ok payment => do
      let tx ← payment.send lib conf txOptionsBuilder
      let _ ← submitTransaction lib conf.client tx payment.From
      pure ()
  else if flags.issueToken ≠ "" then
    match Unmarshal lib flags.issueToken newToken.decode ⟨"", "", "", ""⟩ with
    | .error err => fatal (.jsonError err)
    | .ok nt => do
      let tx ← nt.issueNew lib conf txOptionsBuilder
      let _ ← submitTransaction lib conf.client tx nt.DistributorSeed
      pure ()
  else if flags.txOptions ≠ "" then
    emit (.printOptions txOptionsBuilder)
  else
    emit .printDefaults

/-! ## src/main.go -/

/-- The function getEnv; `env` is os.LookupEnv. -/
def getEnv (env : String → Option String) (key fallback : String) : String :=
  match env key with
  | some value => value
  | none => fallback

/-- The message of the log.Fatalf call of readConfig. -/
def unknownNetworkMessage (snet : String) : String :=
  "Unknown Stellar network: \"" ++ snet ++ ("\". Stellar network is set by the "
    ++ "\"STELLAR_NETWORK\" environment variable. Possible values are \"public\", \"test\". "
    ++ "An unset \"STELLAR_NETWORK\" is treated as \"test\".")

/-- The function readConfig of src/main.go. -/
def Main.readConfig (env : String → Option String) (_cpath : String) : Run config :=
  let snet := getEnv env "STELLAR_NETWORK" "test"
  if snet = "public" then
    pure ⟨.DefaultPublicNetClient, ⟨PublicNetworkPassphrase⟩⟩
  else if snet = "test" then
    pure ⟨.DefaultTestNetClient, ⟨TestNetworkPassphrase⟩⟩
  else
    fatal (.text (unknownNetworkMessage snet))

/-- Modelled from the spec: the struct changeTrust, which main.go decodes the
trustline document into and which no file under src/ declares.  Its fields are
those of the document {source-account, code, issuer-address, limit}. -/
structure changeTrust where
  SourceAccount : String
  Code : String
  IssuerAddress : String
  Limit : String
deriving DecidableEq, Repr

/-- The names of the fields of changeTrust in the trustline document. -/
def changeTrust.fieldNames : List String := ["source-account", "code", "issuer-address", "limit"]

/-- Storing a JSON value in field `i` of a changeTrust. -/
def changeTrust.setField (i : Nat) (v : JSON) (t : changeTrust) : Except JSONError changeTrust :=
  match i with
  | 0 => (decodeString "changeTrust.source-account" t.SourceAccount v).map fun s =>
      { t with SourceAccount := s }
  | 1 => (decodeString "changeTrust.code" t.Code v).map fun s => { t with Code := s }
  | 2 => (decodeString "changeTrust.issuer-address" t.IssuerAddress v).map fun s =>
      { t with IssuerAddress := s }
  | 3 => (decodeString "changeTrust.limit" t.Limit v).map fun s => { t with Limit := s }
  | _ => .ok t

/-- Decoding a JSON value into a changeTrust. -/
def changeTrust.decode (v : JSON) (t : changeTrust) : Except JSONError changeTrust :=
  decodeStruct changeTrust.fieldNames changeTrust.setField "changeTrust" v t

/-- Modelled from the spec: the struct newTransaction, which main.go decodes the
generic transaction document {source-account, operations, signers} into and
which no file under src/ declares.  main.go uses SourceAccount as a string,
Operations as a txOperations and Signers as a slice of strings; a nil slice is
`none`. -/
structure newTransaction where
  SourceAccount : String
  Operations : txOperations
  Signers : Option (List String)
deriving DecidableEq, Repr

/-- The names of the fields of newTransaction in the generic transaction document. -/
def newTransaction.fieldNames : List String := ["source-account", "operations", "signers"]

/-- Storing a JSON value in field `i` of a newTransaction. -/
def newTransaction.setField (i : Nat) (v : JSON) (t : newTransaction) :
    Except JSONError newTransaction :=
  match i with
  | 0 => (decodeString "newTransaction.source-account" t.SourceAccount v).map fun s =>
      { t with SourceAccount := s }
  | 1 => (decodeStruct txOperations.fieldNames txOperations.setField "newTransaction.operations" v
      t.Operations).map fun o => { t with Operations := o }
  | 2 => (decodeStringSlice "newTransaction.signers" v).map fun s => { t with Signers := s }
  | _ => .ok t

/-- Decoding a JSON value into a newTransaction. -/
def newTransaction.decode (v : JSON) (t : newTransaction) : Except JSONError newTransaction :=
  decodeStruct newTransaction.fieldNames newTransaction.setField "newTransaction" v t

/-- The procedures main.go calls and no file under src/ declares with the
signature main.go uses; each is taken as given. -/
structure Main.Cmds (lib : Lib) where
  parseOptions : String → Run SetOptionsBuilder
  fundTestAccount : HorizonClient → String → Run Unit
  createNewKeys : String → Run String
  submitTransactionB64 : HorizonClient → String → Run Int
  loadAccount : HorizonClient → String → Run lib.Account
  toJSON : lib.Account → Run String
  send : tokenPayment → config → SetOptionsBuilder → Run lib.Draft
  set : changeTrust → config → SetOptionsBuilder → Run lib.Draft
  buildTransaction : txOperations → config → SetOptionsBuilder → Run lib.Draft
  submitTransaction : HorizonClient → lib.Draft → List String → Run Int

/-- The flags of src/main.go after flag.Parse. -/
structure Main.Flags where
  fund : String
  keyFpath : String
  txToSubmit : String
  setTrustline : String
  sendPayment : String
  txOptions : String
  accountDetails : String
  buildTransaction : String

/-- The function fmt.Errorf with no argument after the format: it returns the
error and writes nothing. -/
def Errorf (format : String) : String := format

/-- The function main of src/main.go, from the parsed flags on.  Each call of
a procedure of `cmds` is written to the trace first.  In the last case but one
the error fmt.Errorf returns is dropped. -/
def Main.main (lib : Lib) (cmds : Main.Cmds lib) (env : String → Option String)
    (flags : Main.Flags) : Run Unit := do
  let conf ← Main.readConfig env "/tmp/todo"
  let txOptionsBuilder ←
    if flags.txOptions ≠ "" then do
      emit (.call "parseOptions" [flags.txOptions])
      cmds.parseOptions flags.txOptions
    else pure (⟨[]⟩ : SetOptionsBuilder)
  if flags.fund ≠ "" then do
    emit (.call "fundTestAccount" [flags.fund])
    cmds.fundTestAccount conf.client flags.fund
  else if flags.keyFpath ≠ "" then do
    emit (.call "createNewKeys" [flags.keyFpath])
    let _ ← cmds.createNewKeys flags.keyFpath
    pure ()
  else if flags.txToSubmit ≠ "" then do
    emit (.call "submitTransactionB64" [flags.txToSubmit])
    let _ ← cmds.submitTransactionB64 conf.client flags.txToSubmit
    pure ()
  else if flags.accountDetails ≠ "" then do
    emit (.call "loadAccount" [flags.accountDetails])
    let account ← cmds.loadAccount conf.client flags.accountDetails
    emit (.call "toJSON" [])
    let text ← cmds.toJSON account
    emit (.stdout (text ++ "\n"))
  else if flags.sendPayment ≠ "" then
    match Unmarshal lib flags.sendPayment tokenPayment.decode ⟨"", "", "", "", ""⟩ with
    | .error err => fatal (.jsonError err)
    | .ok payment => do
      emit (.call "send" [])
      let tx ← cmds.send payment conf txOptionsBuilder
      emit (.call "submitTransaction" [payment.From])
      let _ ← cmds.submitTransaction conf.client tx [payment.From]
      pure ()
  else if flags.setTrustline ≠ "" then
    match Unmarshal lib flags.setTrustline changeTrust.decode ⟨"", "", "", ""⟩ with
    | .error err => fatal (.jsonError err)
    | .ok ct => do
      emit (.call "set" [])
      let tx ← cmds.set ct conf txOptionsBuilder
      emit (.call "submitTransaction" [ct.SourceAccount])
      let _ ← cmds.submitTransaction conf.client tx [ct.SourceAccount]
      pure ()
  else if flags.buildTransaction ≠ "" then
    match Unmarshal lib flags.buildTransaction newTransaction.decode ⟨"", ⟨none⟩, none⟩ with
    | .error err => fatal (.jsonError err)
    | .ok nt => do
      let operations : txOperations := { nt.Operations with SourceAccount := some nt.SourceAccount }
      emit (.call "buildTransaction" [])
      let tx ← cmds.buildTransaction operations conf txOptionsBuilder
      let signers :=
        match nt.Signers with
        | none => [nt.SourceAccount]
        | some given => given
      emit (.call "submitTransaction" signers)
      let _ ← cmds.submitTransaction conf.client tx signers
      pure ()
  else if flags.txOptions ≠ "" then
    let _err := Errorf ("\"--tx-options\" can't be used by itself, it is an additional flag that "
      ++ "should be used with other flags that build transactions: i.e. \"--send-payment ... "
      ++ "--tx-options ...\" or \"--change-trust ... --tx-options ...\"")
    pure ()
  else
    emit .printDefaults

/-! ## A library instance for concrete runs -/

/-- The shape of a strkey: 56 characters, the first a G (an address) or an S
(a seed). -/
def keyShaped (s : String) : Bool :=
  s.data.length == 56 && (s.data.head? == some (Char.ofNat 71) || s.data.head? == some (Char.ofNat 83))

/-- A stand-in for the address of a key: the key with a G for its first
character. -/
def addressOf (s : String) : String := String.mk (Char.ofNat 71 :: s.data.drop 1)

/-- The text of a document in a table of scanned documents. -/
def lookupDocument (docs : List (String × JSON)) (text : String) : Except String JSON :=
  match docs.find? (fun d => d.1 == text) with
  | some d => .ok d.2
  | none => .error "invalid character looking for beginning of value"

/-- A stand-in for the imported packages, used to run the program on concrete
inputs.  `docs` pairs each JSON text of the run with the document the scanner
reads from it.  A draft is the list of mutators merged into it; a string is
taken for a key when it has the shape of a strkey, so every string this
instance rejects the keypair package rejects as well; horizon accepts every
blob in ledger 42. -/
def demoLib (docs : List (String × JSON)) : Lib where
  Draft := List TransactionMutator
  Envelope := List TransactionMutator × List String
  Account := String
  scan := lookupDocument docs
  keypairParse := fun s =>
    if keyShaped s then .ok ⟨addressOf s⟩
    else .error "invalid key"
  keypairRandom := .error "no entropy"
  newDraft := []
  mutateTransaction := fun m d =>
    match m with
    | .SourceAccount s => if keyShaped s then (d ++ [m], none) else (d, some "invalid key")
    | other => (d ++ [other], none)
  sign := fun d seeds =>
    if seeds.all keyShaped then .ok (d, seeds) else .error "invalid key"
  base64 := fun e => .ok (String.intercalate "," ("envelope" :: e.2))
  submitTransaction := fun _ _ => .ok ⟨42⟩
  loadAccount := fun _ address => .ok address
  marshalIndent := fun a => .ok a
  httpGet := fun _ => .ok ⟨200, .ok ""⟩
  osCreate := fun _ => .ok ()

/-- A seed of the shape the SDK documentation shows. -/
def demoSeed : String := "SAV76USXIJOBMEQXPANUOQM6F5LIOTLPDIDVRJBFFE2MDJXG24TAPUU7"

/-- An address of the shape the SDK documentation shows. -/
def demoAddress : String := "GCFXHS4GXL6BVUCXBWXGTITROWLVYXQKQLF4YH5O5JT3YZXCYPAFBJZB"

/-- The configuration of the test network. -/
def testConfig : config := ⟨.DefaultTestNetClient, ⟨TestNetworkPassphrase⟩⟩

/-- A stand-in for the procedures main.go calls: those src/mc.go declares with
the same signature are taken from it; a trustline is set the way issueNew sets
it, a transaction is built from the source account alone, and a draft is signed
with all the seeds at once. -/
def demoCmds (lib : Lib) : Main.Cmds lib where
  parseOptions := parseOptions lib
  fundTestAccount := fundTestAccount lib
  createNewKeys := createNewKeys lib
  submitTransactionB64 := submitTransactionB64 lib
  loadAccount := loadAccount lib
  toJSON := toJSON lib
  send := fun t conf options => t.send lib conf options
  set := fun ct conf options =>
    newToken.issueNew lib ⟨ct.IssuerAddress, ct.SourceAccount, ct.Code, ct.Limit⟩ conf options
  buildTransaction := fun operations conf options =>
    txOperations.buildTransaction lib conf
      ((structValues operations.fields).filterMap Value.asTransactionMutator) options
  submitTransaction := fun stellar txn seeds =>
    match lib.sign txn seeds with
    | .error err => fatal (.text err)
    | .ok txe =>
      match lib.base64 txe with
      | .error err => fatal (.text err)
      | .ok txeB64 => submitTransactionB64 lib stellar txeB64

/-- The payment document of the spec's scenario with a seed and addresses of
the right shape. -/
def paymentDocument : JSON :=
  .object [("from", .string demoSeed), ("to", .string demoAddress), ("token", .string "XYZ"),
    ("amount", .string "42.0"), ("issuer", .string demoAddress)]

/-- The text of `paymentDocument`. -/
def paymentText : String :=
  "\x7b\"from\": \"" ++ demoSeed ++ "\", \"to\": \"" ++ demoAddress
    ++ "\", \"token\": \"XYZ\", \"amount\": \"42.0\", \"issuer\": \"" ++ demoAddress ++ "\"\x7d"

/-- A payment document with no amount. -/
def paymentNoAmountDocument : JSON :=
  .object [("from", .string demoSeed), ("to", .string demoAddress), ("token", .string "XYZ"),
    ("issuer", .string demoAddress)]

/-- The text of `paymentNoAmountDocument`. -/
def paymentNoAmountText : String :=
  "\x7b\"from\": \"" ++ demoSeed ++ "\", \"to\": \"" ++ demoAddress
    ++ "\", \"token\": \"XYZ\", \"issuer\": \"" ++ demoAddress ++ "\"\x7d"

/-- A token document whose limit is `limit`. -/
def tokenDocument (limit : String) : JSON :=
  .object [("code", .string "XYZ"), ("issuer-address", .string demoAddress),
    ("distributor-seed", .string demoSeed), ("limit", .string limit)]

/-- The text of `tokenDocument limit`, for a limit that needs no escaping. -/
def tokenText (limit : String) : String :=
  "\x7b\"code\": \"XYZ\", \"issuer-address\": \"" ++ demoAddress
    ++ "\", \"distributor-seed\": \"" ++ demoSeed ++ "\", \"limit\": \"" ++ limit ++ "\"\x7d"

/-- A token document that gives the limit "0" as its first member. -/
def tokenLimitFirstDocument : JSON :=
  .object [("limit", .string "0"), ("code", .string "XYZ"),
    ("issuer-address", .string demoAddress), ("distributor-seed", .string demoSeed)]

/-- The text of `tokenLimitFirstDocument`. -/
def tokenLimitFirstText : String :=
  "\x7b\"limit\": \"0\", \"code\": \"XYZ\", \"issuer-address\": \"" ++ demoAddress
    ++ "\", \"distributor-seed\": \"" ++ demoSeed ++ "\"\x7d"

/-- A token document with no limit. -/
def tokenNoLimitDocument : JSON :=
  .object [("code", .string "XYZ"), ("issuer-address", .string demoAddress),
    ("distributor-seed", .string demoSeed)]

/-- The text of `tokenNoLimitDocument`. -/
def tokenNoLimitText : String :=
  "\x7b\"code\": \"XYZ\", \"issuer-address\": \"" ++ demoAddress
    ++ "\", \"distributor-seed\": \"" ++ demoSeed ++ "\"\x7d"

/-- A generic transaction document whose list of signers is empty. -/
def newTxEmptySignersDocument : JSON :=
  .object [("source-account", .string demoSeed), ("signers", .array [])]

/-- The text of `newTxEmptySignersDocument`. -/
def newTxEmptySignersText : String :=
  "\x7b\"source-account\": \"" ++ demoSeed ++ "\", \"signers\": []\x7d"

/-- A generic transaction document with no list of signers. -/
def newTxNoSignersDocument : JSON :=
  .object [("source-account", .string demoSeed)]

/-- The text of `newTxNoSignersDocument`. -/
def newTxNoSignersText : String :=
  "\x7b\"source-account\": \"" ++ demoSeed ++ "\"\x7d"

/-- An options document that sets the home domain. -/
def optionsDocument : JSON := .object [("home-domain", .string "stellar.org")]

/-- The text of `optionsDocument`. -/
def optionsText : String := "\x7b\"home-domain\": \"stellar.org\"\x7d"

/-- A document none of whose keys is a field of txOperations or txOptions. -/
def memoDocument : JSON := .object [("memo", .string "hello")]

/-- The text of `memoDocument`. -/
def memoText : String := "\x7b\"memo\": \"hello\"\x7d"

/-- An environment in which no variable is set. -/
def emptyEnv : String → Option String := fun _ => none

/-- The stand-in library with a horizon that rejects every blob with the
transaction code tx_failed and the operation code op_underfunded. -/
def rejectingLib : Lib :=
  { demoLib [] with
    submitTransaction := fun _ _ =>
      .error (.horizon "Horizon error: \"Transaction Failed\"."
        (.ok ⟨"tx_failed", ["op_underfunded"]⟩)) }

/-- The flags of src/main.go when only --new-tx is given. -/
def newTxFlags (document : String) : Main.Flags :=
  { fund := "", keyFpath := "", txToSubmit := "", setTrustline := "", sendPayment := "",
    txOptions := "", accountDetails := "", buildTransaction := document }

/-- The flags of src/main.go when only --tx-options is given. -/
def txOptionsFlags (document : String) : Main.Flags :=
  { fund := "", keyFpath := "", txToSubmit := "", setTrustline := "", sendPayment := "",
    txOptions := document, accountDetails := "", buildTransaction := "" }

/-- The flags of src/mc.go when only --tx-options is given. -/
def mcTxOptionsFlags (document : String) : Mc.Flags :=
  { fund := "", keyFpath := "", txToSubmit := "", issueToken := "", sendPayment := "",
    txOptions := document, accountDetails := "" }

set_option maxRecDepth 100000

/-! ## Lemmas on runs -/

theorem Run.bind_returned {α β : Type} (tr : List Event) (a : α) (f : α → Run β) :
    (Bind.bind (⟨tr, .returned a⟩ : Run α) f) = ⟨tr ++ (f a).trace, (f a).outcome⟩ := rfl

theorem Run.bind_exited {α β : Type} (tr : List Event) (status : Nat) (f : α → Run β) :
    (Bind.bind (⟨tr, .exited status⟩ : Run α) f) = ⟨tr, .exited status⟩ := rfl

theorem Run.pure_eq {α : Type} (a : α) : (Pure.pure a : Run α) = ⟨[], .returned a⟩ := rfl

/-! ## C1: submitTransactionB64 -/

/-- C1: submitTransactionB64 classifies every outcome of the client's submit
call.  With no error it returns the ledger of the response; with a horizon error
whose result codes decode it exits with status 1 after logging exactly those
codes; with a horizon error whose codes do not decode it exits after logging the
decode failure; with any other error it exits after logging the transport
failure.  It returns a ledger exactly when the client returned no error. -/
theorem submitTransactionB64_classifies (lib : Lib) (stellar : HorizonClient) (base64tx : String) :
    (∀ resp, lib.submitTransaction stellar base64tx = .ok resp →
      submitTransactionB64 lib stellar base64tx
        = ⟨[.submit stellar base64tx], .returned resp.Ledger⟩) ∧
    (∀ msg codes, lib.submitTransaction stellar base64tx = .error (.horizon msg (.ok codes)) →
      submitTransactionB64 lib stellar base64tx
        = ⟨[.submit stellar base64tx, .log (.text msg), .log (.resultCodes codes)], .exited 1⟩) ∧
    (∀ msg cause, lib.submitTransaction stellar base64tx = .error (.horizon msg (.error cause)) →
      submitTransactionB64 lib stellar base64tx
        = ⟨[.submit stellar base64tx, .log (.text msg),
            .log (.text "failed to extract result codes from horizon response")], .exited 1⟩) ∧
    (∀ msg, lib.submitTransaction stellar base64tx = .error (.other msg) →
      submitTransactionB64 lib stellar base64tx
        = ⟨[.submit stellar base64tx, .log (.text msg),
            .log (.text "could not submit the transaction")], .exited 1⟩) ∧
    ((∃ ledger, (submitTransactionB64 lib stellar base64tx).outcome = .returned ledger) ↔
      ∃ resp, lib.submitTransaction stellar base64tx = .ok resp) := by
  refine ⟨?_, ?_, ?_, ?_, ?_⟩
  · intro resp h
    simp [submitTransactionB64, h, emit, Run.bind_returned, Run.pure_eq]
  · intro msg codes h
    simp [submitTransactionB64, h, emit, logPrint, fatal, Run.bind_returned]
  · intro msg cause h
    simp [submitTransactionB64, h, emit, logPrint, fatal, Run.bind_returned]
  · intro msg h
    simp [submitTransactionB64, h, emit, logPrint, fatal, Run.bind_returned]
  · cases h : lib.submitTransaction stellar base64tx with
    | ok resp =>
      simp [submitTransactionB64, h, emit, Run.bind_returned, Run.pure_eq]
    | error err =>
      cases err with
      | horizon msg resultCodes =>
        cases resultCodes <;>
          simp [submitTransactionB64, h, emit, logPrint, fatal, Run.bind_returned]
      | other msg =>
        simp [submitTransactionB64, h, emit, logPrint, fatal, Run.bind_returned]

theorem submitTransactionB64_submits (lib : Lib) (stellar c : HorizonClient) (blob b : String)
    (h : Event.submit c b ∈ (submitTransactionB64 lib stellar blob).trace) :
    c = stellar ∧ b = blob := by
  cases hs : lib.submitTransaction stellar blob with
  | ok resp =>
    simp [submitTransactionB64, hs, emit, Run.bind_returned, Run.pure_eq] at h
    exact h
  | error err =>
    cases err with
    | horizon msg resultCodes =>
      cases resultCodes <;>
        simp [submitTransactionB64, hs, emit, logPrint, fatal, Run.bind_returned] at h <;>
        exact h
    | other msg =>
      simp [submitTransactionB64, hs, emit, logPrint, fatal, Run.bind_returned] at h
      exact h

/-! ## C2: submitTransaction -/

/-- C2: a draft is never submitted unsigned.  When the seed is not empty, signing
with it succeeds and the envelope is encoded, submitTransaction is
submitTransactionB64 on that encoding; every blob it hands to horizon is the
encoding of the envelope signed with the non-empty seed; and when the seed is
empty, or signing fails, or encoding fails, it exits with status 1 and nothing
is submitted. -/
theorem submitTransaction_never_unsigned (lib : Lib) (stellar : HorizonClient) (txn : lib.Draft)
    (seed : String) :
    (∀ txe blob, seed ≠ "" → lib.sign txn [seed] = .ok txe → lib.base64 txe = .ok blob →
      submitTransaction lib stellar txn seed = submitTransactionB64 lib stellar blob) ∧
    (∀ c blob, Event.submit c blob ∈ (submitTransaction lib stellar txn seed).trace →
      seed ≠ "" ∧ c = stellar ∧
        ∃ txe, lib.sign txn [seed] = .ok txe ∧ lib.base64 txe = .ok blob) ∧
    ((seed = "" ∨ (∃ err, lib.sign txn [seed] = .error err) ∨
        (∃ txe err, lib.sign txn [seed] = .ok txe ∧ lib.base64 txe = .error err)) →
      (submitTransaction lib stellar txn seed).outcome = .exited 1 ∧
        ∀ c blob, Event.submit c blob ∉ (submitTransaction lib stellar txn seed).trace) := by
  refine ⟨?_, ?_, ?_⟩
  · intro txe blob hseed hsign henc
    simp [submitTransaction, hseed, hsign, henc, Run.bind_returned, Run.pure_eq]
  · intro c blob hmem
    by_cases hseed : seed = ""
    · simp [submitTransaction, hseed, fatal, Run.bind_exited] at hmem
    · cases hsign : lib.sign txn [seed] with
      | error err =>
        simp [submitTransaction, hseed, hsign, fatal, Run.bind_exited] at hmem
      | ok txe =>
        cases henc : lib.base64 txe with
        | error err =>
          simp [submitTransaction, hseed, hsign, henc, fatal, Run.bind_returned, Run.pure_eq]
            at hmem
        | ok txeB64 =>
          simp [submitTransaction, hseed, hsign, henc, Run.bind_returned, Run.pure_eq] at hmem
          obtain ⟨hc, hb⟩ := submitTransactionB64_submits lib stellar c txeB64 blob hmem
          exact ⟨hseed, hc, txe, rfl, by rw [hb]; exact henc⟩
  · rintro (hseed | ⟨err, hsign⟩ | ⟨txe, err, hsign, henc⟩)
    · simp [submitTransaction, hseed, fatal, Run.bind_exited]
    · by_cases hseed : seed = ""
      · simp [submitTransaction, hseed, fatal, Run.bind_exited]
      · simp [submitTransaction, hseed, hsign, fatal, Run.bind_exited]
    · by_cases hseed : seed = ""
      · simp [submitTransaction, hseed, fatal, Run.bind_exited]
      · simp [submitTransaction, hseed, hsign, henc, fatal, Run.bind_returned, Run.pure_eq]

/-! ## C9: getEnv and readConfig -/

/-- C9: readConfig of src/main.go selects the test network when STELLAR_NETWORK
is absent or is "test", the public network when it is "public", and for any
other value exits with status 1 after logging a message that names the accepted
values "public" and "test"; getEnv returns the value of a variable that is set
and the fallback when the variable is absent. -/
theorem readConfig_selects_network (env : String → Option String) (cpath : String) :
    ((env "STELLAR_NETWORK" = none ∨ env "STELLAR_NETWORK" = some "test") →
      Main.readConfig env cpath
        = ⟨[], .returned ⟨.DefaultTestNetClient, ⟨TestNetworkPassphrase⟩⟩⟩) ∧
    (env "STELLAR_NETWORK" = some "public" →
      Main.readConfig env cpath
        = ⟨[], .returned ⟨.DefaultPublicNetClient, ⟨PublicNetworkPassphrase⟩⟩⟩) ∧
    (∀ snet, env "STELLAR_NETWORK" = some snet → snet ≠ "public" → snet ≠ "test" →
      Main.readConfig env cpath = ⟨[.log (.text (unknownNetworkMessage snet))], .exited 1⟩ ∧
        ∃ before after, unknownNetworkMessage snet
          = before ++ "Possible values are \"public\", \"test\"." ++ after) ∧
    (∀ key fallback,
      (∀ value, env key = some value → getEnv env key fallback = value) ∧
        (env key = none → getEnv env key fallback = fallback)) := by
  refine ⟨?_, ?_, ?_, ?_⟩
  · rintro (h | h) <;> simp [Main.readConfig, getEnv, h, Run.pure_eq]
  · intro h
    simp [Main.readConfig, getEnv, h, Run.pure_eq]
  · intro snet h hp ht
    refine ⟨by simp [Main.readConfig, getEnv, h, hp, ht, fatal], ?_⟩
    refine ⟨"Unknown Stellar network: \"" ++ snet ++ ("\". Stellar network is set by the "
      ++ "\"STELLAR_NETWORK\" environment variable. "),
      " An unset \"STELLAR_NETWORK\" is treated as \"test\".", ?_⟩
    simp only [unknownNetworkMessage, String.append_assoc]
    rfl
  · intro key fallback
    constructor
    · intro value h
      simp [getEnv, h]
    · intro h
      simp [getEnv, h]

/-! ## C3: structValues -/

theorem structValues_foldl (s : List (Option Value)) (acc : List Value) :
    s.foldl (fun values f =>
      match f with
      | some x => values ++ [x]
      | none => values) acc = acc ++ s.filterMap id := by
  induction s generalizing acc with
  | nil => simp
  | cons f rest ih =>
    cases f with
    | none => simpa using ih acc
    | some x => simpa using ih (acc ++ [x])

theorem structValues_eq_filterMap (s : List (Option Value)) :
    structValues s = s.filterMap id := by
  simpa [structValues] using structValues_foldl s []

theorem decodeMembers_unselected {T : Type} (names : List String)
    (set : Nat → JSON → T → Except JSONError T) (members : List (String × JSON)) (t : T)
    (h : ∀ kv ∈ members, findField names kv.1 = none) :
    decodeMembers names set members t = .ok t := by
  induction members with
  | nil => rfl
  | cons kv rest ih =>
    obtain ⟨key, value⟩ := kv
    have hk : findField names key = none := h (key, value) (List.mem_cons_self _ _)
    have hrest : ∀ kv ∈ rest, findField names kv.1 = none :=
      fun kv hkv => h kv (List.mem_cons_of_mem _ hkv)
    simp [decodeMembers, hk, ih hrest]

/-- C3: for every decoded record, structValues returns exactly the values of the
fields that are not nil, in the order the struct declares its fields, and so as
many values as the record has fields that are not nil; for txOperations and
txOptions these are the values listed; and for every JSON object none of whose
keys selects a field of the record, txOperations.parse returns the empty
sequence of mutators and parseOptions the builder of no value, with no log line
and no exit. -/
theorem structValues_nonnull_in_order :
    (∀ s : List (Option Value),
      structValues s = s.filterMap id ∧ (structValues s).length = s.countP Option.isSome) ∧
    (∀ t : txOperations, structValues t.fields = (t.SourceAccount.map Value.SourceAccount).toList) ∧
    (∀ t : txOptions, structValues t.fields
      = (t.HomeDomain.map Value.HomeDomain).toList
        ++ (t.MasterWeight.map Value.MasterWeight).toList) ∧
    (∀ (lib : Lib) (text : String) (members : List (String × JSON)),
      lib.scan text = .ok (.object members) →
      (∀ kv ∈ members, findField txOperations.fieldNames kv.1 = none) →
      txOperations.parse lib text = ⟨[], .returned []⟩) ∧
    (∀ (lib : Lib) (text : String) (members : List (String × JSON)),
      lib.scan text = .ok (.object members) →
      (∀ kv ∈ members, findField txOptions.fieldNames kv.1 = none) →
      parseOptions lib text = ⟨[], .returned ⟨[]⟩⟩) := by
  refine ⟨?_, ?_, ?_, ?_, ?_⟩
  · intro s
    refine ⟨structValues_eq_filterMap s, ?_⟩
    rw [structValues_eq_filterMap]
    induction s with
    | nil => rfl
    | cons f rest ih => cases f <;> simp [ih]
  · intro t
    rw [structValues_eq_filterMap]
    cases h : t.SourceAccount <;> simp [txOperations.fields, h]
  · intro t
    rw [structValues_eq_filterMap]
    cases h1 : t.HomeDomain <;> cases h2 : t.MasterWeight <;> simp [txOptions.fields, h1, h2]
  · intro lib text members hscan hkeys
    have hdec : txOperations.decode (.object members) ⟨none⟩ = .ok ⟨none⟩ := by
      simp [txOperations.decode, decodeStruct,
        decodeMembers_unselected txOperations.fieldNames txOperations.setField members _ hkeys]
    simp [txOperations.parse, Unmarshal, hscan, hdec, structValues_eq_filterMap,
      txOperations.fields, txOperations.parseValues, Run.pure_eq]
  · intro lib text members hscan hkeys
    have hdec : txOptions.decode (.object members) ⟨none, none⟩ = .ok ⟨none, none⟩ := by
      simp [txOptions.decode, decodeStruct,
        decodeMembers_unselected txOptions.fieldNames txOptions.setField members _ hkeys]
    simp [parseOptions, Unmarshal, hscan, hdec, structValues_eq_filterMap,
      txOptions.fields, SetOptions, Run.pure_eq]

/-! ## Lemmas on decoding -/

theorem decodeMembers_append {T : Type} (names : List String)
    (set : Nat → JSON → T → Except JSONError T) (front back : List (String × JSON)) (t : T) :
    decodeMembers names set (front ++ back) t =
      match decodeMembers names set front t with
      | .ok t1 => decodeMembers names set back t1
      | .error e => .error e := by
  induction front generalizing t with
  | nil => rfl
  | cons kv rest ih =>
    obtain ⟨key, value⟩ := kv
    cases hk : findField names key with
    | none => simp [decodeMembers, hk, ih]
    | some i =>
      cases hs : set i value t with
      | error e => simp [decodeMembers, hk, hs]
      | ok t1 => simp [decodeMembers, hk, hs, ih]

theorem decodeMembers_preserves {T β : Type} (names : List String)
    (set : Nat → JSON → T → Except JSONError T) (proj : T → β) (j : Nat)
    (hset : ∀ i v t t1, i ≠ j → set i v t = .ok t1 → proj t1 = proj t)
    (members : List (String × JSON)) (t t1 : T)
    (hkeys : ∀ kv ∈ members, findField names kv.1 ≠ some j)
    (h : decodeMembers names set members t = .ok t1) : proj t1 = proj t := by
  induction members generalizing t with
  | nil =>
    simp only [decodeMembers, Except.ok.injEq] at h
    rw [h]
  | cons kv rest ih =>
    obtain ⟨key, value⟩ := kv
    have hrest : ∀ kv ∈ rest, findField names kv.1 ≠ some j :=
      fun kv hkv => hkeys kv (List.mem_cons_of_mem _ hkv)
    have hkey : findField names key ≠ some j := hkeys (key, value) (List.mem_cons_self _ _)
    cases hk : findField names key with
    | none =>
      simp only [decodeMembers, hk] at h
      exact ih t hrest h
    | some i =>
      have hij : i ≠ j := fun hij => hkey (by rw [hk, hij])
      cases hs : set i value t with
      | error e => simp [decodeMembers, hk, hs] at h
      | ok t2 =>
        simp only [decodeMembers, hk, hs] at h
        rw [ih t2 hrest h, hset i value t t2 hij hs]

theorem decodeMembers_succeeds {T : Type} (names : List String)
    (set : Nat → JSON → T → Except JSONError T)
    (hset : ∀ i s t, ∃ t1, set i (.string s) t = .ok t1)
    (members : List (String × JSON)) (t : T)
    (hstr : ∀ kv ∈ members, findField names kv.1 ≠ none → ∃ s, kv.2 = .string s) :
    ∃ t1, decodeMembers names set members t = .ok t1 := by
  induction members generalizing t with
  | nil => exact ⟨t, rfl⟩
  | cons kv rest ih =>
    obtain ⟨key, value⟩ := kv
    have hrest : ∀ kv ∈ rest, findField names kv.1 ≠ none → ∃ s, kv.2 = .string s :=
      fun kv hkv => hstr kv (List.mem_cons_of_mem _ hkv)
    cases hk : findField names key with
    | none =>
      simp only [decodeMembers, hk]
      exact ih t hrest
    | some i =>
      obtain ⟨s, hv⟩ := hstr (key, value) (List.mem_cons_self _ _) (by simp [hk])
      simp only at hv
      obtain ⟨t2, hs⟩ := hset i s t
      simp only [decodeMembers, hk, hv, hs]
      exact ih t2 hrest

theorem tokenPayment_setField_string (i : Nat) (s : String) (t : tokenPayment) :
    ∃ t1, tokenPayment.setField i (.string s) t = .ok t1 := by
  rcases i with _ | _ | _ | _ | _ | i <;>
    simp [tokenPayment.setField, decodeString, Except.map]

theorem tokenPayment_setField_other (i : Nat) (v : JSON) (t t1 : tokenPayment)
    (h : tokenPayment.setField i v t = .ok t1) :
    (i ≠ 0 → t1.From = t.From) ∧ (i ≠ 1 → t1.To = t.To) ∧ (i ≠ 2 → t1.Amount = t.Amount) ∧
      (i ≠ 3 → t1.Token = t.Token) ∧ (i ≠ 4 → t1.Issuer = t.Issuer) := by
  rcases i with _ | _ | _ | _ | _ | i <;> cases v <;>
    simp [tokenPayment.setField, decodeString, Except.map] at h <;>
    subst h <;> simp

/-! ## C7: tokenPayment.send -/

theorem send_of_key (lib : Lib) (t : tokenPayment) (conf : config)
    (txOptions : SetOptionsBuilder) (kp : KP) (hkey : lib.keypairParse t.From = .ok kp) :
    (t.send lib conf txOptions).trace.filterMap Event.transactionArgs
      = [[.SourceAccount t.From, .Network conf.network, .AutoSequence conf.client,
          .Payment [.Destination t.To, .CreditAmount t.Token t.Issuer t.Amount],
          .SetOptions txOptions]] ∧
    (∀ tx, (t.send lib conf txOptions).outcome = .returned tx ↔
      Transaction lib [.SourceAccount t.From, .Network conf.network, .AutoSequence conf.client,
          .Payment [.Destination t.To, .CreditAmount t.Token t.Issuer t.Amount],
          .SetOptions txOptions] = .ok tx) := by
  cases hb : Transaction lib [.SourceAccount t.From, .Network conf.network,
      .AutoSequence conf.client,
      .Payment [.Destination t.To, .CreditAmount t.Token t.Issuer t.Amount],
      .SetOptions txOptions] with
  | error err =>
    simp [tokenPayment.send, seedToPair, hkey, CreditAsset, hb, emit, logPrint, fatal,
      Run.bind_returned, Run.pure_eq, Event.transactionArgs]
  | ok tx =>
    simp [tokenPayment.send, seedToPair, hkey, CreditAsset, hb, emit, logPrint, fatal,
      Run.bind_returned, Run.pure_eq, Event.transactionArgs]

/-- C7, as amended: for every payment document {from, to, token, amount, issuer}
the decoded tokenPayment holds the five strings unchanged; when from parses as a
key, send calls the transaction builder once, with from as the source account and
exactly one Payment mutator, whose destination is to, whose asset code and issuer
are token and issuer and whose amount is the amount string unchanged; when from
does not parse, send exits with status 1 and the builder is not called. -/
theorem send_one_payment_unchanged (lib : Lib) (text sender dest token amount issuer : String)
    (conf : config) (txOptions : SetOptionsBuilder)
    (hscan : lib.scan text = .ok (.object [("from", .string sender), ("to", .string dest),
      ("token", .string token), ("amount", .string amount), ("issuer", .string issuer)])) :
    Unmarshal lib text tokenPayment.decode ⟨"", "", "", "", ""⟩
      = .ok ⟨sender, dest, amount, token, issuer⟩ ∧
    (∀ kp, lib.keypairParse sender = .ok kp →
      ((⟨sender, dest, amount, token, issuer⟩ : tokenPayment).send lib conf txOptions).trace.filterMap
          Event.transactionArgs
        = [[.SourceAccount sender, .Network conf.network, .AutoSequence conf.client,
            .Payment [.Destination dest, .CreditAmount token issuer amount],
            .SetOptions txOptions]]) ∧
    (∀ err, lib.keypairParse sender = .error err →
      (⟨sender, dest, amount, token, issuer⟩ : tokenPayment).send lib conf txOptions
        = ⟨[.log (.text err)], .exited 1⟩) := by
  have h0 : findField tokenPayment.fieldNames "from" = some 0 := by decide
  have h1 : findField tokenPayment.fieldNames "to" = some 1 := by decide
  have h2 : findField tokenPayment.fieldNames "amount" = some 2 := by decide
  have h3 : findField tokenPayment.fieldNames "token" = some 3 := by decide
  have h4 : findField tokenPayment.fieldNames "issuer" = some 4 := by decide
  refine ⟨?_, ?_, ?_⟩
  · simp [Unmarshal, hscan, tokenPayment.decode, decodeStruct, decodeMembers, h0, h1, h2, h3, h4,
      tokenPayment.setField, decodeString, Except.map]
  · intro kp hkey
    exact (send_of_key lib ⟨sender, dest, amount, token, issuer⟩ conf txOptions kp hkey).1
  · intro err hkey
    simp [tokenPayment.send, seedToPair, hkey, fatal, Run.bind_exited]

/-- C7, witness: the payment document with a seed of the right shape. -/
theorem send_one_payment_unchanged_witness :
    Unmarshal (demoLib [(paymentText, paymentDocument)]) paymentText tokenPayment.decode
        ⟨"", "", "", "", ""⟩
      = .ok ⟨demoSeed, demoAddress, "42.0", "XYZ", demoAddress⟩ ∧
    ((⟨demoSeed, demoAddress, "42.0", "XYZ", demoAddress⟩ : tokenPayment).send
        (demoLib [(paymentText, paymentDocument)]) testConfig ⟨[]⟩).trace.filterMap
          Event.transactionArgs
      = [[.SourceAccount demoSeed, .Network testConfig.network, .AutoSequence testConfig.client,
          .Payment [.Destination demoAddress, .CreditAmount "XYZ" demoAddress "42.0"],
          .SetOptions ⟨[]⟩]] :=
  have h := send_one_payment_unchanged (demoLib [(paymentText, paymentDocument)]) paymentText
    demoSeed demoAddress "XYZ" "42.0" demoAddress testConfig ⟨[]⟩ (by rfl)
  ⟨h.1, h.2.1 ⟨addressOf demoSeed⟩ (by rfl)⟩

/-- C7, counterexample: on the payment of the spec's scenario, whose from is
SEEDA, send exits with status 1 at seedToPair and passes nothing to the
transaction builder. -/
theorem send_scenario_passes_nothing :
    ((⟨"SEEDA", "ADDRB", "42.0", "XYZ", "ADDRC"⟩ : tokenPayment).send (demoLib []) testConfig
        ⟨[]⟩).trace.filterMap Event.transactionArgs = [] ∧
    ((⟨"SEEDA", "ADDRB", "42.0", "XYZ", "ADDRC"⟩ : tokenPayment).send (demoLib []) testConfig
        ⟨[]⟩).trace = [.log (.text "invalid key")] := by
  constructor <;> rfl

/-! ## C4: a payment document with a missing sub-field -/

/-- C4, as amended: for every send-payment document, a JSON object in which
each member that selects a field of tokenPayment is a string, decoding succeeds;
a sub-field (to, token, issuer, amount) that no member selects is left the empty
string and no error names it.  When from parses as a key, send then calls the
transaction builder with a Payment mutator that carries the decoded sub-fields,
the empty string for a missing one, and returns a draft exactly when the builder
returns one. -/
theorem payment_missing_subfield_is_empty (lib : Lib) (text : String)
    (members : List (String × JSON)) (hscan : lib.scan text = .ok (.object members))
    (hstr : ∀ kv ∈ members, findField tokenPayment.fieldNames kv.1 ≠ none →
      ∃ s, kv.2 = .string s) :
    ∃ t, Unmarshal lib text tokenPayment.decode ⟨"", "", "", "", ""⟩ = .ok t ∧
      ((∀ kv ∈ members, findField tokenPayment.fieldNames kv.1 ≠ some 1) → t.To = "") ∧
      ((∀ kv ∈ members, findField tokenPayment.fieldNames kv.1 ≠ some 3) → t.Token = "") ∧
      ((∀ kv ∈ members, findField tokenPayment.fieldNames kv.1 ≠ some 4) → t.Issuer = "") ∧
      ((∀ kv ∈ members, findField tokenPayment.fieldNames kv.1 ≠ some 2) → t.Amount = "") ∧
      (∀ conf txOptions kp, lib.keypairParse t.From = .ok kp →
        (t.send lib conf txOptions).trace.filterMap Event.transactionArgs
          = [[.SourceAccount t.From, .Network conf.network, .AutoSequence conf.client,
              .Payment [.Destination t.To, .CreditAmount t.Token t.Issuer t.Amount],
              .SetOptions txOptions]] ∧
        ∀ tx, (t.send lib conf txOptions).outcome = .returned tx ↔
          Transaction lib [.SourceAccount t.From, .Network conf.network,
              .AutoSequence conf.client,
              .Payment [.Destination t.To, .CreditAmount t.Token t.Issuer t.Amount],
              .SetOptions txOptions] = .ok tx) := by
  obtain ⟨t, ht⟩ := decodeMembers_succeeds tokenPayment.fieldNames tokenPayment.setField
    tokenPayment_setField_string members ⟨"", "", "", "", ""⟩ hstr
  refine ⟨t, ?_, ?_, ?_, ?_, ?_, ?_⟩
  · simp [Unmarshal, hscan, tokenPayment.decode, decodeStruct, ht]
  · intro hk
    exact decodeMembers_preserves tokenPayment.fieldNames tokenPayment.setField
      tokenPayment.To 1 (fun i v a b hi h => (tokenPayment_setField_other i v a b h).2.1 hi)
      members _ t hk ht
  · intro hk
    exact decodeMembers_preserves tokenPayment.fieldNames tokenPayment.setField
      tokenPayment.Token 3 (fun i v a b hi h => (tokenPayment_setField_other i v a b h).2.2.2.1 hi)
      members _ t hk ht
  · intro hk
    exact decodeMembers_preserves tokenPayment.fieldNames tokenPayment.setField
      tokenPayment.Issuer 4 (fun i v a b hi h => (tokenPayment_setField_other i v a b h).2.2.2.2 hi)
      members _ t hk ht
  · intro hk
    exact decodeMembers_preserves tokenPayment.fieldNames tokenPayment.setField
      tokenPayment.Amount 2 (fun i v a b hi h => (tokenPayment_setField_other i v a b h).2.2.1 hi)
      members _ t hk ht
  · intro conf txOptions kp hkey
    exact send_of_key lib t conf txOptions kp hkey

/-- C4, witness: the payment document with no amount satisfies the hypotheses. -/
theorem payment_missing_subfield_is_empty_witness :
    ∃ t, Unmarshal (demoLib [(paymentNoAmountText, paymentNoAmountDocument)]) paymentNoAmountText
        tokenPayment.decode ⟨"", "", "", "", ""⟩ = .ok t ∧
      ((∀ kv ∈ [("from", JSON.string demoSeed), ("to", JSON.string demoAddress),
          ("token", JSON.string "XYZ"), ("issuer", JSON.string demoAddress)],
        findField tokenPayment.fieldNames kv.1 ≠ some 2) → t.Amount = "") := by
  obtain ⟨t, h, _, _, _, h2, _⟩ := payment_missing_subfield_is_empty
    (demoLib [(paymentNoAmountText, paymentNoAmountDocument)]) paymentNoAmountText
    [("from", JSON.string demoSeed), ("to", JSON.string demoAddress),
      ("token", JSON.string "XYZ"), ("issuer", JSON.string demoAddress)] (by rfl)
    (by
      intro kv hkv _
      simp only [List.mem_cons, List.mem_singleton, List.not_mem_nil, or_false] at hkv
      rcases hkv with h | h | h | h <;> subst h <;> exact ⟨_, rfl⟩)
  exact ⟨t, h, h2⟩

/-- C4, counterexample: a payment document with no amount is decoded without
error, its amount the empty string, and send hands the transaction builder a
Payment mutator with that empty amount. -/
theorem payment_without_amount_parses :
    Unmarshal (demoLib [(paymentNoAmountText, paymentNoAmountDocument)]) paymentNoAmountText
        tokenPayment.decode ⟨"", "", "", "", ""⟩
      = .ok ⟨demoSeed, demoAddress, "", "XYZ", demoAddress⟩ ∧
    ((⟨demoSeed, demoAddress, "", "XYZ", demoAddress⟩ : tokenPayment).send
        (demoLib [(paymentNoAmountText, paymentNoAmountDocument)]) testConfig ⟨[]⟩).trace.filterMap
          Event.transactionArgs
      = [[.SourceAccount demoSeed, .Network testConfig.network, .AutoSequence testConfig.client,
          .Payment [.Destination demoAddress, .CreditAmount "XYZ" demoAddress ""],
          .SetOptions ⟨[]⟩]] := by
  constructor <;> rfl

/-! ## C8: newToken.issueNew -/

theorem newToken_setField_other (i : Nat) (v : JSON) (t t1 : newToken)
    (h : newToken.setField i v t = .ok t1) : i ≠ 3 → t1.Limit = t.Limit := by
  rcases i with _ | _ | _ | _ | i <;> cases v <;>
    simp [newToken.setField, decodeString, Except.map] at h <;>
    subst h <;> simp

theorem issueNew_of_key (lib : Lib) (t : newToken) (conf : config)
    (txOptions : SetOptionsBuilder) (kp : KP)
    (hkey : lib.keypairParse t.DistributorSeed = .ok kp) :
    (t.issueNew lib conf txOptions).trace.filterMap Event.transactionArgs
      = [[.SourceAccount kp.Address, .AutoSequence conf.client, .Network conf.network,
          .Trust t.Code t.IssuerAddress (if t.Limit = "" then MaxLimit else t.Limit),
          .SetOptions txOptions]] := by
  by_cases hl : t.Limit = "" <;>
  cases hb : Transaction lib [.SourceAccount kp.Address, .AutoSequence conf.client,
      .Network conf.network,
      .Trust t.Code t.IssuerAddress (if t.Limit = "" then MaxLimit else t.Limit),
      .SetOptions txOptions] <;>
    simp [hl] at hb <;>
    simp [newToken.issueNew, seedToPair, hkey, hl, hb, emit, fatal,
      Run.bind_returned, Run.pure_eq, Event.transactionArgs]

theorem decodeMembers_keeps {T β : Type} (names : List String)
    (set : Nat → JSON → T → Except JSONError T) (proj : T → β) (j : Nat)
    (hset : ∀ i v t t1, (i = j → v = JSON.null) → set i v t = .ok t1 → proj t1 = proj t)
    (members : List (String × JSON)) (t t1 : T)
    (hkeys : ∀ kv ∈ members, findField names kv.1 = some j → kv.2 = JSON.null)
    (h : decodeMembers names set members t = .ok t1) : proj t1 = proj t := by
  induction members generalizing t with
  | nil =>
    simp only [decodeMembers, Except.ok.injEq] at h
    rw [h]
  | cons kv rest ih =>
    obtain ⟨key, value⟩ := kv
    have hrest : ∀ kv ∈ rest, findField names kv.1 = some j → kv.2 = JSON.null :=
      fun kv hkv => hkeys kv (List.mem_cons_of_mem _ hkv)
    have hkey : findField names key = some j → value = JSON.null :=
      hkeys (key, value) (List.mem_cons_self _ _)
    cases hk : findField names key with
    | none =>
      simp only [decodeMembers, hk] at h
      exact ih t hrest h
    | some i =>
      cases hs : set i value t with
      | error e => simp [decodeMembers, hk, hs] at h
      | ok t2 =>
        simp only [decodeMembers, hk, hs] at h
        rw [ih t2 hrest h]
        exact hset i value t t2 (fun hij => hkey (by rw [hk, hij])) hs

theorem newToken_setField_keeps (i : Nat) (v : JSON) (t t1 : newToken)
    (hv : i = 3 → v = JSON.null) (h : newToken.setField i v t = .ok t1) :
    t1.Limit = t.Limit := by
  rcases i with _ | _ | _ | _ | i
  · exact newToken_setField_other _ v t t1 h (by decide)
  · exact newToken_setField_other _ v t t1 h (by decide)
  · exact newToken_setField_other _ v t t1 h (by decide)
  · have hnull : v = JSON.null := hv rfl
    subst hnull
    simp [newToken.setField, decodeString, Except.map] at h
    subst h
    rfl
  · exact newToken_setField_other _ v t t1 h (by omega)

theorem newToken_limit_in_effect (members : List (String × JSON)) (nt : newToken)
    (hmem : decodeMembers newToken.fieldNames newToken.setField members ⟨"", "", "", ""⟩
      = .ok nt) :
    ((∀ kv ∈ members, findField newToken.fieldNames kv.1 = some 3 → kv.2 = JSON.null) →
      nt.Limit = "") ∧
    (∀ front key s back, members = front ++ (key, .string s) :: back →
      findField newToken.fieldNames key = some 3 →
      (∀ kv ∈ back, findField newToken.fieldNames kv.1 = some 3 → kv.2 = JSON.null) →
      nt.Limit = s) := by
  constructor
  · intro hk
    exact decodeMembers_keeps newToken.fieldNames newToken.setField newToken.Limit 3
      (fun i v a b hv h => newToken_setField_keeps i v a b hv h) members _ nt hk hmem
  · intro front key s back hm hk hback
    rw [hm, decodeMembers_append] at hmem
    cases hf : decodeMembers newToken.fieldNames newToken.setField front ⟨"", "", "", ""⟩ with
    | error e => simp [hf] at hmem
    | ok t1 =>
      simp only [hf, decodeMembers, hk, newToken.setField, decodeString, Except.map] at hmem
      exact decodeMembers_keeps newToken.fieldNames newToken.setField newToken.Limit 3
        (fun i v a b hv h => newToken_setField_keeps i v a b hv h) back _ nt hback hmem

/-- C8, as amended: for every token document that decodes and whose distributor
seed parses as a key, issueNew calls the transaction builder once, with one
trust mutator on the code and issuer of the document.  Its limit is MaxLimit
when the limit is omitted, that is when no member of the document selects the
limit or each one that does is null.  When a limit is given, a string member
that selects the limit at any place in the document with no string for the
limit after it, the mutator carries that limit string unchanged if it is not the
empty string, and MaxLimit if it is the empty string.  A trust mutator of limit
"0" differs from the one of limit MaxLimit. -/
theorem issueNew_trust_limit (lib : Lib) (text : String) (members : List (String × JSON))
    (nt : newToken) (conf : config) (txOptions : SetOptionsBuilder) (kp : KP)
    (hscan : lib.scan text = .ok (.object members))
    (hdec : Unmarshal lib text newToken.decode ⟨"", "", "", ""⟩ = .ok nt)
    (hkey : lib.keypairParse nt.DistributorSeed = .ok kp) :
    (∃ limit, (nt.issueNew lib conf txOptions).trace.filterMap Event.transactionArgs
        = [[.SourceAccount kp.Address, .AutoSequence conf.client, .Network conf.network,
            .Trust nt.Code nt.IssuerAddress limit, .SetOptions txOptions]] ∧
      ((∀ kv ∈ members, findField newToken.fieldNames kv.1 = some 3 → kv.2 = JSON.null) →
        limit = MaxLimit) ∧
      (∀ front key s back, members = front ++ (key, .string s) :: back →
        findField newToken.fieldNames key = some 3 →
        (∀ kv ∈ back, findField newToken.fieldNames kv.1 = some 3 → kv.2 = JSON.null) →
        (s ≠ "" → limit = s) ∧ (s = "" → limit = MaxLimit))) ∧
    TransactionMutator.Trust nt.Code nt.IssuerAddress "0"
      ≠ TransactionMutator.Trust nt.Code nt.IssuerAddress MaxLimit := by
  have hmem : decodeMembers newToken.fieldNames newToken.setField members ⟨"", "", "", ""⟩
      = .ok nt := by
    simpa [Unmarshal, hscan, newToken.decode, decodeStruct] using hdec
  obtain ⟨homitted, hgiven⟩ := newToken_limit_in_effect members nt hmem
  refine ⟨⟨if nt.Limit = "" then MaxLimit else nt.Limit,
    issueNew_of_key lib nt conf txOptions kp hkey, ?_, ?_⟩, ?_⟩
  · intro hk
    simp [homitted hk]
  · intro front key s back hm hk hback
    have h := hgiven front key s back hm hk hback
    constructor
    · intro hs
      simp [h, hs]
    · intro hs
      simp [h, hs]
  · simp [MaxLimit]

/-- C8, witness: the token document that gives the limit "0" as its first
member. -/
theorem issueNew_trust_limit_witness :
    (∃ limit, ((⟨demoAddress, demoSeed, "XYZ", "0"⟩ : newToken).issueNew
          (demoLib [(tokenLimitFirstText, tokenLimitFirstDocument)]) testConfig
            ⟨[]⟩).trace.filterMap Event.transactionArgs
        = [[.SourceAccount (addressOf demoSeed), .AutoSequence testConfig.client,
            .Network testConfig.network, .Trust "XYZ" demoAddress limit, .SetOptions ⟨[]⟩]] ∧
      limit = "0") := by
  obtain ⟨⟨limit, h, _, hgiven⟩, _⟩ := issueNew_trust_limit
    (demoLib [(tokenLimitFirstText, tokenLimitFirstDocument)]) tokenLimitFirstText
    [("limit", .string "0"), ("code", .string "XYZ"), ("issuer-address", .string demoAddress),
      ("distributor-seed", .string demoSeed)]
    ⟨demoAddress, demoSeed, "XYZ", "0"⟩ testConfig ⟨[]⟩ ⟨addressOf demoSeed⟩
    (by rfl) (by rfl) (by rfl)
  refine ⟨limit, h, (hgiven [] "limit" "0" [("code", .string "XYZ"),
    ("issuer-address", .string demoAddress), ("distributor-seed", .string demoSeed)] rfl
    (by decide) ?_).1 (by decide)⟩
  intro kv hkv hsel
  simp only [List.mem_cons, List.mem_singleton, List.not_mem_nil, or_false] at hkv
  rcases hkv with h | h | h <;> subst h <;> exact absurd hsel (by decide)

/-- C8, counterexample: a token document that gives the empty string as its
limit is decoded with that limit, and the trust mutator issueNew builds carries
MaxLimit, not the limit string of the document. -/
theorem issueNew_empty_limit_is_max :
    Unmarshal (demoLib [(tokenText "", tokenDocument "")]) (tokenText "") newToken.decode
        ⟨"", "", "", ""⟩ = .ok ⟨demoAddress, demoSeed, "XYZ", ""⟩ ∧
    ((⟨demoAddress, demoSeed, "XYZ", ""⟩ : newToken).issueNew
        (demoLib [(tokenText "", tokenDocument "")]) testConfig ⟨[]⟩).trace.filterMap
          Event.transactionArgs
      = [[.SourceAccount (addressOf demoSeed), .AutoSequence testConfig.client,
          .Network testConfig.network, .Trust "XYZ" demoAddress "922337203685.4775807",
          .SetOptions ⟨[]⟩]] := by
  constructor <;> rfl

/-! ## C6: txOperations.buildTransaction -/

theorem Mutate_append (lib : Lib) (front back : List TransactionMutator) (d : lib.Draft) :
    Mutate lib (front ++ back) d =
      match Mutate lib front d with
      | (d1, none) => Mutate lib back d1
      | (d1, some err) => (d1, some err) := by
  induction front generalizing d with
  | nil => rfl
  | cons m rest ih =>
    rcases hm : lib.mutateTransaction m d with ⟨d1, _ | err⟩
    · simp [Mutate, hm, ih]
    · simp [Mutate, hm]

/-- C6, the code at a rejected mutator: once the builder of the network, the
sequence and the options exists, buildTransaction of src/mc.go returns a draft for
every sequence of mutators, with no log line and no exit.  When the mutators
before `m` are merged and `m` is rejected, the draft returned is the one that
rejection left, and the error and the mutators after `m` are dropped. -/
theorem buildTransaction_returns_after_rejection (lib : Lib) (conf : config)
    (operations : List TransactionMutator) (options : SetOptionsBuilder) (tx : lib.Draft)
    (hinit : Transaction lib [.Network conf.network, .AutoSequence conf.client,
      .SetOptions options] = .ok tx) :
    txOperations.buildTransaction lib conf operations options
      = ⟨[.transaction [.Network conf.network, .AutoSequence conf.client, .SetOptions options],
          .mutate operations], .returned (Mutate lib operations tx).1⟩ ∧
    (∀ front m back err, operations = front ++ m :: back →
      (Mutate lib front tx).2 = none →
      (lib.mutateTransaction m (Mutate lib front tx).1).2 = some err →
      Mutate lib operations tx
        = ((lib.mutateTransaction m (Mutate lib front tx).1).1, some err)) := by
  constructor
  · simp [txOperations.buildTransaction, hinit, emit, Run.bind_returned, Run.pure_eq]
  · intro front m back err hops hfront hm
    rw [hops, Mutate_append]
    rcases hf : Mutate lib front tx with ⟨d1, e1⟩
    rw [hf] at hfront hm
    simp only at hfront hm
    subst hfront
    rcases hr : lib.mutateTransaction m d1 with ⟨d2, e2⟩
    rw [hr] at hm
    simp only at hm
    subst hm
    simp [Mutate, hr]

/-- C6, witness: a source account that is no key is rejected by the builder,
and buildTransaction returns the draft all the same. -/
theorem buildTransaction_returns_after_rejection_witness :
    txOperations.buildTransaction (demoLib []) testConfig [.SourceAccount "not a key"] ⟨[]⟩
      = ⟨[.transaction [.Network testConfig.network, .AutoSequence testConfig.client,
            .SetOptions ⟨[]⟩], .mutate [.SourceAccount "not a key"]],
          .returned [.Network testConfig.network, .AutoSequence testConfig.client,
            .SetOptions ⟨[]⟩]⟩ ∧
    Mutate (demoLib []) [.SourceAccount "not a key"]
        [.Network testConfig.network, .AutoSequence testConfig.client, .SetOptions ⟨[]⟩]
      = ([.Network testConfig.network, .AutoSequence testConfig.client, .SetOptions ⟨[]⟩],
          some "invalid key") :=
  have h := buildTransaction_returns_after_rejection (demoLib []) testConfig
    [.SourceAccount "not a key"] ⟨[]⟩
    [.Network testConfig.network, .AutoSequence testConfig.client, .SetOptions ⟨[]⟩] (by rfl)
  ⟨h.1, h.2 [] (.SourceAccount "not a key") [] "invalid key" rfl (by rfl) (by rfl)⟩

/-! ## C5: the signers of a generic transaction -/

/-- C5, the code at an empty list of signers: on a document whose signers are
the empty array, main of src/main.go calls submitTransaction with no seed at
all; on the same document without signers it calls it with the source account. -/
theorem main_newTx_empty_signers_no_seed :
    (Main.main (demoLib [(newTxEmptySignersText, newTxEmptySignersDocument)])
        (demoCmds (demoLib [(newTxEmptySignersText, newTxEmptySignersDocument)])) emptyEnv
        (newTxFlags newTxEmptySignersText)).trace.filterMap (Event.callArgs "submitTransaction")
      = [[]] ∧
    (Main.main (demoLib [(newTxNoSignersText, newTxNoSignersDocument)])
        (demoCmds (demoLib [(newTxNoSignersText, newTxNoSignersDocument)])) emptyEnv
        (newTxFlags newTxNoSignersText)).trace.filterMap (Event.callArgs "submitTransaction")
      = [[demoSeed]] := by
  constructor <;> rfl

/-! ## C10: the options sub-document alone -/

/-- C10, the code when only --tx-options is given: with a network that
readConfig accepts and an options document that parseOptions accepts, main of
src/main.go returns after the call of parseOptions, having written nothing and
run no command, and the process ends with status 0; main of src/mc.go prints the
options and returns. -/
theorem main_txOptions_alone_reports_nothing (lib : Lib) (cmds : Main.Cmds lib)
    (env : String → Option String) (conf : config) (document : String) (tr : List Event)
    (b : SetOptionsBuilder)
    (henv : Main.readConfig env "/tmp/todo" = ⟨[], .returned conf⟩)
    (hdoc : document ≠ "")
    (hparse : cmds.parseOptions document = ⟨tr, .returned b⟩)
    (hmc : parseOptions lib document = ⟨tr, .returned b⟩) :
    Main.main lib cmds env (txOptionsFlags document)
      = ⟨.call "parseOptions" [document] :: tr, .returned ()⟩ ∧
    Mc.main lib (mcTxOptionsFlags document) = ⟨tr ++ [.printOptions b], .returned ()⟩ := by
  constructor
  · simp [Main.main, txOptionsFlags, henv, hdoc, hparse, emit, Errorf, Run.bind_returned,
      Run.pure_eq]
  · simp [Mc.main, mcTxOptionsFlags, hdoc, hmc, emit, Run.bind_returned, Run.pure_eq]

/-- C10, witness: the options document that sets the home domain. -/
theorem main_txOptions_alone_reports_nothing_witness :
    Main.main (demoLib [(optionsText, optionsDocument)])
        (demoCmds (demoLib [(optionsText, optionsDocument)])) emptyEnv
        (txOptionsFlags optionsText)
      = ⟨[.call "parseOptions" [optionsText]], .returned ()⟩ ∧
    Mc.main (demoLib [(optionsText, optionsDocument)]) (mcTxOptionsFlags optionsText)
      = ⟨[.printOptions ⟨[.HomeDomain "stellar.org"]⟩], .returned ()⟩ :=
  main_txOptions_alone_reports_nothing (demoLib [(optionsText, optionsDocument)])
    (demoCmds (demoLib [(optionsText, optionsDocument)])) emptyEnv testConfig optionsText []
    ⟨[.HomeDomain "stellar.org"]⟩ (by rfl) (by decide) (by rfl) (by rfl)

/-! ## Concrete runs of the confirmed claims -/

/-- C1, witness: a rejection with a transaction code and an operation code is
logged with both codes in order and ends the process with status 1. -/
theorem submitTransactionB64_classifies_witness :
    submitTransactionB64 rejectingLib .DefaultTestNetClient "AAAA"
      = ⟨[.submit .DefaultTestNetClient "AAAA",
          .log (.text "Horizon error: \"Transaction Failed\"."),
          .log (.resultCodes ⟨"tx_failed", ["op_underfunded"]⟩)], .exited 1⟩ :=
  (submitTransactionB64_classifies rejectingLib .DefaultTestNetClient "AAAA").2.1
    "Horizon error: \"Transaction Failed\"." ⟨"tx_failed", ["op_underfunded"]⟩ rfl

/-- C2, witness: with a seed that signs, the encoding of the signed envelope is
what is submitted; with the empty seed nothing is. -/
theorem submitTransaction_never_unsigned_witness :
    submitTransaction (demoLib []) .DefaultTestNetClient [] demoSeed
      = submitTransactionB64 (demoLib []) .DefaultTestNetClient
          (String.intercalate "," ["envelope", demoSeed]) ∧
    (submitTransaction (demoLib []) .DefaultTestNetClient [] "").outcome = .exited 1 :=
  ⟨(submitTransaction_never_unsigned (demoLib []) .DefaultTestNetClient [] demoSeed).1
      ([], [demoSeed]) _ (by decide) (by rfl) (by rfl),
    ((submitTransaction_never_unsigned (demoLib []) .DefaultTestNetClient [] "").2.2
      (Or.inl rfl)).1⟩

/-- C3, witness: a document whose only key is memo gives no mutator and no
option. -/
theorem structValues_nonnull_in_order_witness :
    txOperations.parse (demoLib [(memoText, memoDocument)]) memoText = ⟨[], .returned []⟩ ∧
    parseOptions (demoLib [(memoText, memoDocument)]) memoText = ⟨[], .returned ⟨[]⟩⟩ ∧
    structValues [some (.HomeDomain "stellar.org"), none] = [.HomeDomain "stellar.org"] :=
  ⟨structValues_nonnull_in_order.2.2.2.1 (demoLib [(memoText, memoDocument)]) memoText
      [("memo", .string "hello")] (by rfl)
      (by
        intro kv hkv
        simp only [List.mem_singleton] at hkv
        subst hkv
        decide),
    structValues_nonnull_in_order.2.2.2.2 (demoLib [(memoText, memoDocument)]) memoText
      [("memo", .string "hello")] (by rfl)
      (by
        intro kv hkv
        simp only [List.mem_singleton] at hkv
        subst hkv
        decide),
    (structValues_nonnull_in_order.1 [some (.HomeDomain "stellar.org"), none]).1⟩

/-- C9, witness: with no variable set the test network is selected, and the
value "main" ends the process. -/
theorem readConfig_selects_network_witness :
    Main.readConfig emptyEnv "/tmp/todo"
      = ⟨[], .returned ⟨.DefaultTestNetClient, ⟨TestNetworkPassphrase⟩⟩⟩ ∧
    Main.readConfig (fun _ => some "main") "/tmp/todo"
      = ⟨[.log (.text (unknownNetworkMessage "main"))], .exited 1⟩ :=
  ⟨(readConfig_selects_network emptyEnv "/tmp/todo").1 (Or.inl rfl),
    ((readConfig_selects_network (fun _ => some "main") "/tmp/todo").2.2.1 "main" rfl
      (by decide) (by decide)).1⟩

end StellarMc
